import Mathlib

set_option maxHeartbeats 1000000

/-
Verification of the candle-aggregation engine (`candles.py`) and the trading
simulator (`simulator.py`) of the cmf repository.  Trade prices, sizes and
P&L values (Python floats) are modelled as exact rationals; the Sharpe and
Sortino outputs live in the reals (extended reals for Sortino, which can be
positive infinity).  Fallible Python code (raising `ValueError`) is modelled
with `Except String`.
-/

namespace CMF

/-- Side of a trade tick: the `side` column of the trades dataframe
(`marketdata.py`), either buyer- or seller-initiated. -/
inductive Side
  | buy
  | sell
deriving DecidableEq

/-- One trade tick: a row of `MarketData.trades` after `_process_market_data`
(`candles.py`).  `ts` is the timestamp in microseconds measured from the
resample origin (pandas `resample` anchors its bins at midnight of the day of
the first sample, so bin boundaries fall at whole multiples of the window
from that origin). -/
structure Tick where
  ts : ℕ
  price : ℚ
  amount : ℚ
  side : Side
deriving DecidableEq

/-- One OHLC candle: a row of the dataframe assembled by
`_generate_candles_dataframe` (`candles.py`).  The Python column name `open`
is a Lean keyword, hence the field name `open_`. -/
structure Candle where
  open_ : ℚ
  high : ℚ
  low : ℚ
  close : ℚ
  avg_buy_price : ℚ
  avg_sell_price : ℚ
  buy_volume : ℚ
  sell_volume : ℚ
deriving DecidableEq

instance : Inhabited Candle := ⟨⟨0, 0, 0, 0, 0, 0, 0, 0⟩⟩

/-- Model of `CandleSeries` (`candles.py`): the candle dataframe plus the window size.
The Python dataclass also stores a `length` field, which `_gen_cnd` always
sets to `len(data)`; it is modelled by the derived function
`CandleSeries.length` below. -/
structure CandleSeries where
  data : List Candle
  window_ms : ℤ
deriving DecidableEq

instance : Inhabited CandleSeries := ⟨⟨[], 0⟩⟩

/-- Value `len(data)`, the `length` field of the Python dataclass. -/
def CandleSeries.length (cs : CandleSeries) : ℕ := cs.data.length

/-- Model of `CandleSeries.get_candle_at` / `get_value_at`, i.e. `data.iloc[index]`.
Every call made by the simulator is guarded by `_is_action_within_candles`,
so the index is always in range and the `default` fallback (where pandas
would raise `IndexError`) is never consulted. -/
def getCandle (cs : CandleSeries) (t : ℕ) : Candle := cs.data.getD t default

/-- Bin index of a tick for a window of `w_us` microseconds: `resample`
assigns the sample at offset `ts` from the origin to bin `ts / w_us`. -/
def binOf (w_us : ℕ) (t : Tick) : ℕ := t.ts / w_us

/-- The ticks falling into bin `k`. -/
def ticksIn (w_us : ℕ) (ticks : List Tick) (k : ℕ) : List Tick :=
  ticks.filter (fun t => binOf w_us t == k)

/-- First bin produced by `resample`: the bin of the earliest tick. -/
def minBin (w_us : ℕ) (ticks : List Tick) : ℕ :=
  ((ticks.map (binOf w_us)).min?).getD 0

/-- Last bin produced by `resample`: the bin of the latest tick. -/
def maxBin (w_us : ℕ) (ticks : List Tick) : ℕ :=
  ((ticks.map (binOf w_us)).max?).getD 0

/-- Number of bins `resample` produces: every bin from the bin of the first tick to
the bin of the last tick, empty bins included. -/
def nBins (w_us : ℕ) (ticks : List Tick) : ℕ :=
  maxBin w_us ticks - minBin w_us ticks + 1

/-- The `open` column of `trades["price"].ohlc()` for one bin: price of the first
trade in the bin, NaN (`none`) if the bin is empty. -/
def rawOpen (w_us : ℕ) (ticks : List Tick) (k : ℕ) : Option ℚ :=
  ((ticksIn w_us ticks k).map Tick.price).head?

/-- The `high` column of `ohlc()` for one bin: maximal trade price in the bin. -/
def rawHigh (w_us : ℕ) (ticks : List Tick) (k : ℕ) : Option ℚ :=
  ((ticksIn w_us ticks k).map Tick.price).max?

/-- The `low` column of `ohlc()` for one bin: minimal trade price in the bin. -/
def rawLow (w_us : ℕ) (ticks : List Tick) (k : ℕ) : Option ℚ :=
  ((ticksIn w_us ticks k).map Tick.price).min?

/-- The `close` column of `ohlc()` for one bin: price of the last trade. -/
def rawClose (w_us : ℕ) (ticks : List Tick) (k : ℕ) : Option ℚ :=
  ((ticksIn w_us ticks k).map Tick.price).getLast?

/-- The ticks of one bin restricted to one side (`x["side"] == "buy"` etc.,
in `_calc_buy_avg_price` and friends). -/
def sideTicks (w_us : ℕ) (ticks : List Tick) (k : ℕ) (sd : Side) : List Tick :=
  (ticksIn w_us ticks k).filter (fun t => decide (t.side = sd))

/-- Value of `np.average(prices, weights=amounts)` over the given ticks when there is
at least one, else the explicit `0` of `_calc_buy_avg_price` /
`_calc_sell_avg_price`. -/
def avgPrice (l : List Tick) : ℚ :=
  if l.isEmpty then 0
  else (l.map (fun t => t.price * t.amount)).sum / (l.map Tick.amount).sum

/-- Value of `x["amount"].sum()` over the given ticks; `_calc_buy_volume` returns `0`
when the side is absent, which coincides with the empty sum. -/
def sideVolume (l : List Tick) : ℚ := (l.map Tick.amount).sum

/-- The values `DataFrame.interpolate(method="linear")` writes into a run of
`m` consecutive NaNs sitting between the valid values `a` and `b`: the
method treats entries as equally spaced, so the j-th NaN of the run becomes
`a + (b - a) * j / (m + 1)`. -/
def interpRun (a b : ℚ) (m : ℕ) : List ℚ :=
  (List.range m).map (fun i => a + (b - a) * ((i : ℚ) + 1) / ((m : ℚ) + 1))

/-- Interpolation of the part of a column after its first valid value `a`,
carrying the count of the pending NaN run.  A trailing NaN run is filled
with the last valid value (the clamping behaviour of `np.interp`, which
pandas uses for `method="linear"` with the default forward limit
direction). -/
def interpGo (a : ℚ) (pending : ℕ) : List (Option ℚ) → List ℚ
  | [] => List.replicate pending a
  | none :: rest => interpGo a (pending + 1) rest
  | some b :: rest => interpRun a b pending ++ (b :: interpGo b 0 rest)

/-- Model of `Series.interpolate(method="linear")`: NaNs before the first valid value
are left untouched (default `limit_direction="forward"`); every NaN after it
is filled by `interpGo`. -/
def interpolateColumn : List (Option ℚ) → List (Option ℚ)
  | [] => []
  | none :: rest => none :: interpolateColumn rest
  | some a :: rest => some a :: (interpGo a 0 rest).map some

/-- The rows of the candle dataframe: OHLC columns are computed per bin and
then linearly interpolated (`_calc_ohlc_data`); the per-side average prices
and volumes are computed per bin with an explicit 0 for an absent side.
The `.getD i none |>.getD 0` extraction of interpolated values can only see
the fallbacks on a leading NaN, and the leading bin always contains the
earliest tick, so the fallbacks are never consulted. -/
def candleRows (w_us : ℕ) (ticks : List Tick) : List Candle :=
  let n := nBins w_us ticks
  let base := minBin w_us ticks
  let opens := interpolateColumn ((List.range n).map (fun i => rawOpen w_us ticks (base + i)))
  let highs := interpolateColumn ((List.range n).map (fun i => rawHigh w_us ticks (base + i)))
  let lows := interpolateColumn ((List.range n).map (fun i => rawLow w_us ticks (base + i)))
  let closes := interpolateColumn ((List.range n).map (fun i => rawClose w_us ticks (base + i)))
  (List.range n).map (fun i =>
    { open_ := ((opens.getD i none).getD 0)
      high := ((highs.getD i none).getD 0)
      low := ((lows.getD i none).getD 0)
      close := ((closes.getD i none).getD 0)
      avg_buy_price := avgPrice (sideTicks w_us ticks (base + i) Side.buy)
      avg_sell_price := avgPrice (sideTicks w_us ticks (base + i) Side.sell)
      buy_volume := sideVolume (sideTicks w_us ticks (base + i) Side.buy)
      sell_volume := sideVolume (sideTicks w_us ticks (base + i) Side.sell) })

/-- Model of `_generate_candles_dataframe`.  A non-positive `window_ms` is rejected by
the `resample` call itself (pandas validates that the sampling frequency is
positive before touching the data); an empty tick sequence produces a
resampler with zero bins, and relabelling the concatenated result with the 8
candle column names then fails with a length-mismatch error, so no dataframe
is produced in either case. -/
def _generate_candles_dataframe (ticks : List Tick) (window_ms : ℤ) :
    Except String (List Candle) :=
  if window_ms ≤ 0 then .error ("resample frequency must be positive")
  else if ticks.isEmpty then .error ("Length mismatch on candle columns")
  else .ok (candleRows (window_ms.toNat * 1000) ticks)

/-- Model of `_gen_cnd`: wraps the dataframe into a `CandleSeries` (whose Python
`length` field is `len(data)`, here `CandleSeries.length`). -/
def _gen_cnd (ticks : List Tick) (window_ms : ℤ) : Except String CandleSeries :=
  match _generate_candles_dataframe ticks window_ms with
  | .error e => .error e
  | .ok rows => .ok ⟨rows, window_ms⟩

/-- Model of `generate_candles`: per-instrument aggregation; the error of the
first failing instrument propagates (the executor re-raises the first exception in
submission order). -/
def generate_candles : List (String × List Tick) → ℤ →
    Except String (List (String × CandleSeries))
  | [], _ => .ok []
  | (instr, ticks) :: rest, window_ms =>
    match _gen_cnd ticks window_ms with
    | .error e => .error e
    | .ok cs =>
      match generate_candles rest window_ms with
      | .error e => .error e
      | .ok tail => .ok ((instr, cs) :: tail)

/-- Value of `np.mean`. -/
def mean (l : List ℚ) : ℚ := l.sum / (l.length : ℚ)

/-- The square of `np.std` (population variance, `ddof = 0`);
`np.std(l) != 0` holds exactly when `variance l ≠ 0`. -/
def variance (l : List ℚ) : ℚ :=
  ((l.map (fun x => (x - mean l) ^ 2)).sum) / (l.length : ℚ)

/-- Model of `_calc_sharpe_ratio` of `simulator.py` (its Python name ends with the
word ratio): `0` on an empty series, `mean/std` with a `0` fallback when
`np.std` is zero, i.e. when the variance is zero. -/
noncomputable def calcSharpe (pnls : List ℚ) : ℝ :=
  if pnls.length = 0 then 0
  else if variance pnls = 0 then 0
  else ((mean pnls : ℚ) : ℝ) / Real.sqrt ((variance pnls : ℚ) : ℝ)

/-- Model of `_calc_sortino_ratio` of `simulator.py` (its Python name ends with the
word ratio): `0` on an empty series; positive infinity when no value is
negative; otherwise `np.mean(pnls) / np.std(pnls)` — note that the Python
variable `downside_std` is assigned `np.std(pnls)` over the whole series,
not over the downside subset — with a `0` fallback when that std is zero. -/
noncomputable def calcSortino (pnls : List ℚ) : EReal :=
  if pnls.length = 0 then 0
  else
    let downside_pnls := pnls.filter (fun p => decide (p < 0))
    if downside_pnls.length = 0 then ⊤
    else if variance pnls = 0 then 0
    else ((((mean pnls : ℚ) : ℝ) / Real.sqrt ((variance pnls : ℚ) : ℝ) : ℝ) : EReal)

/-- Model of `Action` of `strategies.py`: a signed trade quantity, positive to buy,
negative to sell, zero to hold. -/
structure Action where
  quantity : ℤ
deriving DecidableEq

/-- The per-step `Actions` dict of `strategies.py`: instrument name to
action, modelled as an association list in dict insertion order
(Python dict keys are unique). -/
abbrev Actions := List (String × Action)

/-- Model of `Strategy` of `strategies.py`. -/
structure Strategy where
  name : String
  mode : String
  actions_vector : List Actions
deriving DecidableEq

/-- Constant `Strategy.CLOSE`. -/
def Strategy.CLOSE : String := "close"

/-- Constant `Strategy.AVERAGE`. -/
def Strategy.AVERAGE : String := "average"

/-- Value of `Strategy.valid_modes()`. -/
def Strategy.valid_modes : List String := [Strategy.CLOSE, Strategy.AVERAGE]

/-- Model of `TradingStats` of `simulator.py`.  The Python fields named
`sharpe_ratio` and `sortino_ratio` are spelled `sharpe` and `sortino`
here. -/
structure TradingStats where
  pnl : ℚ
  traded_volume : ℤ
  max_drawdown : ℚ
  holding_time_percent : List (String × ℚ)
  position_flips : List (String × ℤ)
  sharpe : ℝ
  sortino : EReal

/-- Model of `TradingSimulator`: the candle series per instrument given at
construction (`__init__` rejects an empty mapping) and the registry of
strategies by name. -/
structure TradingSimulator where
  candles : List (String × CandleSeries)
  strategies : List (String × Strategy)
deriving DecidableEq

/-- Model of `TradingSimulator.add_strategy`: rejects an unsupported mode, then
registers the strategy only when its name is not already present. -/
def add_strategy (sim : TradingSimulator) (strategy : Strategy) :
    Except String TradingSimulator :=
  if strategy.mode ∈ Strategy.valid_modes then
    if (sim.strategies.lookup strategy.name).isSome then .ok sim
    else .ok { sim with strategies := sim.strategies ++ [(strategy.name, strategy)] }
  else .error ("Unsupported mode " ++ strategy.mode)

/-- The message of the `ValueError` raised by `_is_action_within_candles`
(the Python text quotes the instrument name). -/
def unknownInstrumentMsg (instrument : String) : String :=
  "Instrument " ++ instrument ++ " is not contained in trading simulator candles"

/-- Model of `TradingSimulator._is_action_within_candles`: raises for an instrument
absent from the candles of the simulator, otherwise reports whether index `t` is
within the series of that instrument. -/
def _is_action_within_candles (sim : TradingSimulator) (instrument : String)
    (t : ℕ) : Except String Bool :=
  match sim.candles.lookup instrument with
  | none => .error (unknownInstrumentMsg instrument)
  | some cs => .ok (decide (t < cs.length))

/-- Model of `TradingSimulator._action_price`: close price in close mode; in average
mode the volume-weighted average price of the side, or 0 for a zero quantity;
raises on any other mode.  (`self.candles[instrument]` is only ever reached
after `_is_action_within_candles` has verified the instrument, so the
`default` fallback is never consulted.) -/
def _action_price (sim : TradingSimulator) (instrument : String) (mode : String)
    (quantity : ℤ) (t : ℕ) : Except String ℚ :=
  let cs := (sim.candles.lookup instrument).getD default
  if mode = Strategy.CLOSE then .ok ((getCandle cs t).close)
  else if mode = Strategy.AVERAGE then
    if quantity > 0 then .ok ((getCandle cs t).avg_buy_price)
    else if quantity < 0 then .ok ((getCandle cs t).avg_sell_price)
    else .ok 0
  else .error ("Unsupported mode " ++ mode)

/-- The value `_action_price` returns when the mode is one of the two valid
ones (in which case it never raises). -/
def actionPriceVal (sim : TradingSimulator) (instrument : String) (mode : String)
    (quantity : ℤ) (t : ℕ) : ℚ :=
  let cs := (sim.candles.lookup instrument).getD default
  if mode = Strategy.CLOSE then (getCandle cs t).close
  else if quantity > 0 then (getCandle cs t).avg_buy_price
  else if quantity < 0 then (getCandle cs t).avg_sell_price
  else 0

/-- Add `v` to key `k` of a `defaultdict(int)` (`m[k] += v`): an existing
entry is updated in place, a missing key starts from the default 0. -/
def bump : List (String × ℤ) → String → ℤ → List (String × ℤ)
  | [], k, v => [(k, v)]
  | (k0, x) :: rest, k, v =>
    if k0 == k then (k0, x + v) :: rest else (k0, x) :: bump rest k v

/-- Overwrite key `k` of a `defaultdict(int)` (`m[k] = v`). -/
def setEntry : List (String × ℤ) → String → ℤ → List (String × ℤ)
  | [], k, v => [(k, v)]
  | (k0, x) :: rest, k, v =>
    if k0 == k then (k0, v) :: rest else (k0, x) :: setEntry rest k v

/-- Read a `defaultdict(int)` (`m[k]` defaults to 0; the read-triggered key
insertion of the Python defaultdict is invisible in every returned value). -/
def getD0 (m : List (String × ℤ)) (k : String) : ℤ := (m.lookup k).getD 0

/-- The mutable state of `_simulate_strategy`: the accumulators initialised
before the loop, the per-step `_pnl` (reset at the start of each step) and
the per-step P&L values written into `pnl_series[t]` so far. -/
structure SimState where
  pnl : ℚ
  max_pnl : ℚ
  traded_volume : ℤ
  max_drawdown : ℚ
  position_flips : List (String × ℤ)
  avg_holding_time : List (String × ℤ)
  curr_position : List (String × ℤ)
  step_pnl : ℚ
  pnl_steps : List ℚ
deriving DecidableEq

/-- The initial state of `_simulate_strategy`. -/
def initState : SimState := ⟨0, 0, 0, 0, [], [], [], 0, []⟩

/-- The trade branches of the loop body, after both prices were obtained:
buy and sell accumulate the signed P&L `(ltp - action_price) * quantity` and
flip the tracked position when the trade direction crosses the current one;
a zero quantity increments the holding-time counter. -/
def applyTrade (s : SimState) (instr : String) (action : Action)
    (action_price ltp : ℚ) : SimState :=
  if action.quantity > 0 then
    let s := { s with step_pnl := s.step_pnl + (ltp - action_price) * (action.quantity : ℚ) }
    if getD0 s.curr_position instr ≤ 0 then
      { s with curr_position := setEntry s.curr_position instr 1
               position_flips := bump s.position_flips instr 1 }
    else s
  else if action.quantity < 0 then
    let s := { s with step_pnl := s.step_pnl + (ltp - action_price) * (action.quantity : ℚ) }
    if getD0 s.curr_position instr ≥ 0 then
      { s with curr_position := setEntry s.curr_position instr (-1)
               position_flips := bump s.position_flips instr 1 }
    else s
  else { s with avg_holding_time := bump s.avg_holding_time instr 1 }

/-- One iteration of the inner loop of `_simulate_strategy` over the
`(instrument, action)` pairs of a step: skip the pair when index `t + 1` is
not available; increment the holding-time counter when the entry price is 0;
accumulate the traded volume; then apply the trade branches. -/
def applyAction (sim : TradingSimulator) (mode : String) (t : ℕ) (s : SimState)
    (pair : String × Action) : Except String SimState :=
  match _is_action_within_candles sim pair.1 (t + 1) with
  | .error e => .error e
  | .ok false => .ok s
  | .ok true =>
    match _action_price sim pair.1 mode pair.2.quantity t with
    | .error e => .error e
    | .ok action_price =>
      let s := if action_price = 0 then
          { s with avg_holding_time := bump s.avg_holding_time pair.1 1 }
        else s
      let s := { s with traded_volume := s.traded_volume + (pair.2.quantity.natAbs : ℤ) }
      match _action_price sim pair.1 mode pair.2.quantity (t + 1) with
      | .error e => .error e
      | .ok ltp => .ok (applyTrade s pair.1 pair.2 action_price ltp)

/-- The inner loop of `_simulate_strategy` over the pairs of one step. -/
def runPairs (sim : TradingSimulator) (mode : String) (t : ℕ) :
    SimState → Actions → Except String SimState
  | s, [] => .ok s
  | s, p :: rest =>
    match applyAction sim mode t s p with
    | .error e => .error e
    | .ok s2 => runPairs sim mode t s2 rest

/-- One iteration of the outer loop of `_simulate_strategy`: reset `_pnl`,
process the pairs of the step, then fold `_pnl` into the cumulative P&L, the
running peak, the drawdown and `pnl_series[t]`. -/
def simStep (sim : TradingSimulator) (mode : String) (avec : List Actions)
    (s : SimState) (t : ℕ) : Except String SimState :=
  match runPairs sim mode t { s with step_pnl := 0 } (avec.getD t []) with
  | .error e => .error e
  | .ok s2 =>
    let pnl := s2.pnl + s2.step_pnl
    let max_pnl := max s2.max_pnl pnl
    .ok { s2 with pnl := pnl
                  max_pnl := max_pnl
                  max_drawdown := max s2.max_drawdown (max_pnl - pnl)
                  pnl_steps := s2.pnl_steps ++ [s2.step_pnl] }

/-- The outer loop of `_simulate_strategy` over the step indices. -/
def runSteps (sim : TradingSimulator) (mode : String) (avec : List Actions) :
    SimState → List ℕ → Except String SimState
  | s, [] => .ok s
  | s, t :: ts =>
    match simStep sim mode avec s t with
    | .error e => .error e
    | .ok s2 => runSteps sim mode avec s2 ts

/-- Value of `max([cndls.length for cndls in self.candles.values()])`; `__init__`
rejects an empty candle mapping, so the 0 seed (where Python `max` would
raise) is never the result. -/
def maxLen (candles : List (String × CandleSeries)) : ℕ :=
  (candles.map (fun p => p.2.length)).foldl max 0

/-- The replay horizon `length` of `_simulate_strategy`. -/
def simLength (sim : TradingSimulator) (strategy : Strategy) : ℕ :=
  min (maxLen sim.candles) strategy.actions_vector.length

/-- The whole loop of `_simulate_strategy`: `for t in range(length - 1)`
starting from the zeroed accumulators. -/
def simulateCore (sim : TradingSimulator) (strategy : Strategy) :
    Except String SimState :=
  runSteps sim strategy.mode strategy.actions_vector initState
    (List.range (simLength sim strategy - 1))

/-- Model of `TradingSimulator._simulate_strategy`: run the loop, then assemble the
`TradingStats`.  `pnl_series` is `np.zeros(length)` whose first `length - 1`
entries were assigned the per-step P&L values, i.e. the recorded steps plus
one trailing zero when `length ≥ 1`.  `holding_time_percent` divides each
hold counter by `min(self.candles[instr].length, len(actions_vector))`; the
instrument is always present in the candles (the guard raised otherwise) and
the divisor is at least 1 for any recorded instrument, so neither fallback
is ever consulted. -/
noncomputable def _simulate_strategy (sim : TradingSimulator)
    (strategy : Strategy) : Except String TradingStats :=
  match simulateCore sim strategy with
  | .error e => .error e
  | .ok s =>
    let length := simLength sim strategy
    let pnl_series := s.pnl_steps ++ List.replicate (length - (length - 1)) 0
    .ok { pnl := s.pnl
          traded_volume := s.traded_volume
          max_drawdown := s.max_drawdown
          holding_time_percent := s.avg_holding_time.map (fun p =>
            (p.1, (p.2 : ℚ) /
              ((min ((sim.candles.lookup p.1).getD default).length
                  strategy.actions_vector.length : ℕ) : ℚ)))
          position_flips := s.position_flips
          sharpe := calcSharpe pnl_series
          sortino := calcSortino pnl_series }

/-- Model of `TradingSimulator.run` restricted to a list of registry entries:
simulate each strategy in registration order, the first error
propagating. -/
noncomputable def runOn (sim : TradingSimulator) :
    List (String × Strategy) → Except String (List (String × TradingStats))
  | [] => .ok []
  | p :: rest =>
    match _simulate_strategy sim p.2 with
    | .error e => .error e
    | .ok stats =>
      match runOn sim rest with
      | .error e => .error e
      | .ok tail => .ok ((p.1, stats) :: tail)

/-- Model of `TradingSimulator.run`: simulate every registered strategy, keyed by
name. -/
noncomputable def run (sim : TradingSimulator) :
    Except String (List (String × TradingStats)) :=
  runOn sim sim.strategies

/-- Whether the instrument has a candle at index `u`; the `Bool` that
`_is_action_within_candles` returns when it does not raise, `false` for an
unknown instrument. -/
def withinB (sim : TradingSimulator) (instr : String) (u : ℕ) : Bool :=
  match sim.candles.lookup instr with
  | none => false
  | some cs => decide (u < cs.length)

/-- How much one processed hold pair adds to the holding-time counter of
the instrument: 1 from the hold branch, plus 1 more from the
`if action_price == 0` check when the entry price of a zero quantity at step
`t` is 0 (always the case in average mode). -/
def holdInc (sim : TradingSimulator) (mode : String) (t : ℕ) (instr : String) : ℤ :=
  (if actionPriceVal sim instr mode 0 t = 0 then 1 else 0) + 1

/-- Total holding-time increments that the pairs of one all-hold step
contribute to `instr`: one `holdInc` per pair naming the instrument whose
guard at `t + 1` passes. -/
def stepHoldContrib (sim : TradingSimulator) (mode : String) (pairs : Actions)
    (t : ℕ) (instr : String) : ℤ :=
  (pairs.map (fun p =>
    if p.1 = instr ∧ withinB sim instr (t + 1) = true
    then holdInc sim mode t instr else 0)).sum

/-- Final holding-time counter of `instr` for an all-hold strategy replayed
over horizon `T`: the sum of the per-step contributions of steps
`0 … T - 2`. -/
def holdCount (sim : TradingSimulator) (mode : String) (avec : List Actions)
    (T : ℕ) (instr : String) : ℤ :=
  ((List.range (T - 1)).map (fun t =>
    stepHoldContrib sim mode (avec.getD t []) t instr)).sum

/-- The instrument is named by some `(instrument, action)` pair of a step the
simulation loop actually processes (`t < length - 1`). -/
def namedInProcessed (sim : TradingSimulator) (strat : Strategy)
    (instr : String) : Prop :=
  ∃ t, t < simLength sim strat - 1 ∧
    ∃ a, (instr, a) ∈ strat.actions_vector.getD t []

/-- Invariant of the loop state used for the key-set claims: every entry of
the position-flip and holding-time maps has a count of at least 1 and a key
satisfying `N`. -/
def keysInv (N : String → Prop) (s : SimState) : Prop :=
  (∀ p ∈ s.position_flips, 1 ≤ p.2 ∧ N p.1) ∧
  (∀ p ∈ s.avg_holding_time, 1 ≤ p.2 ∧ N p.1)

/-- A candle whose price fields all equal `x` (and both volumes 1). -/
def candleC (x : ℚ) : Candle := ⟨x, x, x, x, x, x, 1, 1⟩

/-- A 3-candle series with close prices 10, 12, 11. -/
def csC3 : CandleSeries := ⟨[candleC 10, candleC 12, candleC 11], 1⟩

/-- A simulator holding the single instrument `a` with `csC3`. -/
def simC3 : TradingSimulator := ⟨[("a", csC3)], []⟩

/-- A close-mode strategy holding (quantity 0) at all three steps. -/
def stratC3 : Strategy :=
  ⟨"hold", "close", [[("a", ⟨0⟩)], [("a", ⟨0⟩)], [("a", ⟨0⟩)]]⟩

/-- A 2-candle series with (nonzero) close prices 3 and 4. -/
def csC4 : CandleSeries := ⟨[candleC 3, candleC 4], 1⟩

/-- A simulator holding the single instrument `a` with `csC4`. -/
def simC4 : TradingSimulator := ⟨[("a", csC4)], []⟩

/-- An average-mode strategy holding (quantity 0) at both steps. -/
def stratC4 : Strategy := ⟨"hold", "average", [[("a", ⟨0⟩)], [("a", ⟨0⟩)]]⟩

/-- A close-mode strategy acting on an instrument `b` that `simC4` does not
hold. -/
def stratC9 : Strategy := ⟨"s", "close", [[("b", ⟨1⟩)], [("b", ⟨1⟩)]]⟩

/-- A close-mode strategy holding (quantity 0) at both steps on the known
instrument `a`. -/
def stratC10 : Strategy := ⟨"s", "close", [[("a", ⟨0⟩)], [("a", ⟨0⟩)]]⟩

/-- The loop state `simulateCore simC4 stratC10` ends in: one processed hold
step with nonzero close price. -/
def coreC10 : SimState := ⟨0, 0, 0, 0, [], [("a", 1)], [], 0, [0]⟩

/-- Tick set exhibiting an empty middle window: one trade at offset 0 and one
at offset 2000 microseconds, aggregated with a 1 ms window, so bin 1 holds no
trades. -/
def ticksC1 : List Tick :=
  [⟨0, 10, 1, Side.buy⟩, ⟨2000, 20, 1, Side.buy⟩]

/-- The candle series the aggregation engine produces for `ticksC1`. -/
def csC1 : CandleSeries := ⟨candleRows 1000 ticksC1, 1⟩

/-- A concrete strategy for the `add_strategy` idempotence claim. -/
def stratC7 : Strategy := ⟨"alpha", "close", []⟩

/-- A simulator that already holds `stratC7` under its name. -/
def simC7 : TradingSimulator :=
  ⟨[("doge", ⟨[default], 1⟩)], [("alpha", stratC7)]⟩

/- ------------------------------------------------------------------ -/
/- Theorems.  First, helper lemmas about the defaultdict model.       -/
/- ------------------------------------------------------------------ -/

theorem getD0_nil (k : String) : getD0 [] k = 0 := rfl

theorem getD0_bump (m : List (String × ℤ)) (k : String) (v : ℤ) (k2 : String) :
    getD0 (bump m k v) k2 = getD0 m k2 + if k2 = k then v else 0 := by
  induction m with
  | nil =>
    by_cases h : k2 = k
    · subst h; simp [bump, getD0, List.lookup]
    · have hb : (k2 == k) = false := beq_eq_false_iff_ne.mpr h
      simp [bump, getD0, List.lookup, hb, h]
  | cons p rest ih =>
    obtain ⟨k0, x⟩ := p
    by_cases h0 : k0 = k
    · subst h0
      by_cases h2 : k2 = k0
      · subst h2; simp [bump, getD0, List.lookup]
      · have hb : (k2 == k0) = false := beq_eq_false_iff_ne.mpr h2
        simp [bump, getD0, List.lookup, hb, h2]
    · have hb0 : (k0 == k) = false := beq_eq_false_iff_ne.mpr h0
      by_cases h2 : k2 = k0
      · subst h2
        have hne : k2 ≠ k := h0
        have hb2 : (k2 == k) = false := beq_eq_false_iff_ne.mpr hne
        simp [bump, getD0, List.lookup, hb0, hne]
      · have hb2 : (k2 == k0) = false := beq_eq_false_iff_ne.mpr h2
        have := ih
        simp only [getD0] at this
        simp only [bump, hb0, Bool.false_eq_true, if_false, getD0,
          List.lookup, hb2]
        exact this

theorem keys_bump (m : List (String × ℤ)) (k : String) (v : ℤ) :
    (bump m k v).map Prod.fst = m.map Prod.fst ∨
    (bump m k v).map Prod.fst = m.map Prod.fst ++ [k] := by
  induction m with
  | nil => right; simp [bump]
  | cons p rest ih =>
    obtain ⟨k0, x⟩ := p
    by_cases h0 : k0 = k
    · left; simp [bump, h0]
    · rcases ih with h | h
      · left; simp [bump, h0, h]
      · right; simp [bump, h0, h]

theorem lookup_isSome_iff_mem_keys (m : List (String × ℤ)) (k : String) :
    (m.lookup k).isSome ↔ k ∈ m.map Prod.fst := by
  induction m with
  | nil => simp [List.lookup]
  | cons p rest ih =>
    obtain ⟨k0, x⟩ := p
    by_cases h : k = k0
    · subst h; simp [List.lookup]
    · have hb : (k == k0) = false := beq_eq_false_iff_ne.mpr h
      simp [List.lookup, hb, h, ih]

theorem nodupKeys_bump (m : List (String × ℤ)) (k : String) (v : ℤ)
    (h : (m.map Prod.fst).Nodup) :
    ((bump m k v).map Prod.fst).Nodup := by
  induction m with
  | nil => simp [bump]
  | cons p rest ih =>
    obtain ⟨k0, x⟩ := p
    simp only [List.map_cons, List.nodup_cons] at h
    by_cases h0 : k0 = k
    · subst h0
      simp only [bump, beq_self_eq_true, if_true, List.map_cons, List.nodup_cons]
      exact ⟨h.1, h.2⟩
    · have hrest := ih h.2
      simp only [bump]
      rw [if_neg (by simpa using h0)]
      simp only [List.map_cons, List.nodup_cons]
      refine ⟨?_, hrest⟩
      intro hk0
      rcases keys_bump rest k v with hk | hk
      · rw [hk] at hk0; exact h.1 hk0
      · rw [hk] at hk0
        rcases List.mem_append.mp hk0 with h1 | h1
        · exact h.1 h1
        · simp at h1; exact h0 h1

theorem mem_getD0 (m : List (String × ℤ)) (p : String × ℤ)
    (hnd : (m.map Prod.fst).Nodup) (hp : p ∈ m) : getD0 m p.1 = p.2 := by
  induction m with
  | nil => exact absurd hp (List.not_mem_nil p)
  | cons q rest ih =>
    obtain ⟨k0, x⟩ := q
    simp only [List.map_cons, List.nodup_cons] at hnd
    rcases List.mem_cons.mp hp with rfl | hprest
    · simp [getD0, List.lookup]
    · have hne : p.1 ≠ k0 := by
        intro hkey
        exact hnd.1 (hkey ▸ List.mem_map_of_mem Prod.fst hprest)
      have hb : (p.1 == k0) = false := beq_eq_false_iff_ne.mpr hne
      have := ih hnd.2 hprest
      simp only [getD0] at this
      simp only [getD0, List.lookup, hb]
      exact this

theorem bump_one_inv (N : String → Prop) (m : List (String × ℤ)) (k : String)
    (hm : ∀ p ∈ m, 1 ≤ p.2 ∧ N p.1) (hk : N k) :
    ∀ p ∈ bump m k 1, 1 ≤ p.2 ∧ N p.1 := by
  induction m with
  | nil =>
    intro p hp
    simp only [bump, List.mem_singleton] at hp
    subst hp
    exact ⟨le_refl 1, hk⟩
  | cons q rest ih =>
    obtain ⟨k0, x⟩ := q
    intro p hp
    by_cases h0 : k0 = k
    · subst h0
      simp only [bump, beq_self_eq_true, if_true] at hp
      rcases List.mem_cons.mp hp with rfl | hprest
      · have hx := hm (k0, x) (List.mem_cons_self _ _)
        have hx1 : (1 : ℤ) ≤ x := hx.1
        refine ⟨?_, hk⟩
        show (1 : ℤ) ≤ x + 1
        omega
      · exact hm p (List.mem_cons_of_mem _ hprest)
    · simp only [bump] at hp
      rw [if_neg (by simpa using h0)] at hp
      rcases List.mem_cons.mp hp with rfl | hprest
      · exact hm (k0, x) (List.mem_cons_self _ _)
      · exact ih (fun q hq => hm q (List.mem_cons_of_mem _ hq)) p hprest

theorem action_price_ok (sim : TradingSimulator) (instr mode : String)
    (q : ℤ) (t : ℕ) (hm : mode = Strategy.CLOSE ∨ mode = Strategy.AVERAGE) :
    _action_price sim instr mode q t = .ok (actionPriceVal sim instr mode q t) := by
  have hs : Strategy.AVERAGE ≠ Strategy.CLOSE := by decide
  rcases hm with rfl | rfl
  · simp [_action_price, actionPriceVal]
  · by_cases hq : q > 0
    · simp [_action_price, actionPriceVal, hq, hs]
    · by_cases hq2 : q < 0 <;> simp [_action_price, actionPriceVal, hq, hq2, hs]

theorem applyAction_unknown (sim : TradingSimulator) (mode : String) (t : ℕ)
    (s : SimState) (p : String × Action)
    (hnone : sim.candles.lookup p.1 = none) :
    applyAction sim mode t s p = .error (unknownInstrumentMsg p.1) := by
  simp [applyAction, _is_action_within_candles, hnone]

theorem applyAction_known_ok (sim : TradingSimulator) (mode : String) (t : ℕ)
    (s : SimState) (p : String × Action) (cs : CandleSeries)
    (hm : mode = Strategy.CLOSE ∨ mode = Strategy.AVERAGE)
    (hcs : sim.candles.lookup p.1 = some cs) :
    ∃ s2, applyAction sim mode t s p = .ok s2 := by
  simp only [applyAction, _is_action_within_candles, hcs]
  by_cases hin : t + 1 < cs.length
  · have hd : decide (t + 1 < cs.length) = true := decide_eq_true hin
    simp only [hd, action_price_ok sim p.1 mode p.2.quantity t hm,
      action_price_ok sim p.1 mode p.2.quantity (t + 1) hm]
    exact ⟨_, rfl⟩
  · have : decide (t + 1 < cs.length) = false := decide_eq_false hin
    simp only [this]
    exact ⟨s, rfl⟩

theorem runPairs_ok (sim : TradingSimulator) (mode : String) (t : ℕ)
    (hm : mode = Strategy.CLOSE ∨ mode = Strategy.AVERAGE) :
    ∀ (pairs : Actions) (s : SimState),
      (∀ p ∈ pairs, (sim.candles.lookup p.1).isSome) →
      ∃ s2, runPairs sim mode t s pairs = .ok s2 := by
  intro pairs
  induction pairs with
  | nil => exact fun s _ => ⟨s, rfl⟩
  | cons p rest ih =>
    intro s hall
    obtain ⟨cs, hcs⟩ := Option.isSome_iff_exists.mp
      (hall p (List.mem_cons_self _ _))
    obtain ⟨s1, hs1⟩ := applyAction_known_ok sim mode t s p cs hm hcs
    obtain ⟨s2, hs2⟩ := ih s1 (fun q hq => hall q (List.mem_cons_of_mem _ hq))
    exact ⟨s2, by simp only [runPairs, hs1]; exact hs2⟩

theorem runPairs_err (sim : TradingSimulator) (mode : String) (t : ℕ)
    (hm : mode = Strategy.CLOSE ∨ mode = Strategy.AVERAGE) :
    ∀ (pairs : Actions) (s : SimState),
      (∃ p ∈ pairs, sim.candles.lookup p.1 = none) →
      ∃ j, sim.candles.lookup j = none ∧
        runPairs sim mode t s pairs = .error (unknownInstrumentMsg j) := by
  intro pairs
  induction pairs with
  | nil =>
    rintro s ⟨p, hp, -⟩
    exact absurd hp (List.not_mem_nil p)
  | cons p rest ih =>
    rintro s ⟨q, hq, hqn⟩
    cases hcs : sim.candles.lookup p.1 with
    | none =>
      refine ⟨p.1, hcs, ?_⟩
      simp only [runPairs, applyAction_unknown sim mode t s p hcs]
    | some cs =>
      obtain ⟨s1, hs1⟩ := applyAction_known_ok sim mode t s p cs hm hcs
      have hqrest : q ∈ rest := by
        rcases List.mem_cons.mp hq with rfl | h
        · rw [hcs] at hqn; cases hqn
        · exact h
      obtain ⟨j, hj1, hj2⟩ := ih s1 ⟨q, hqrest, hqn⟩
      exact ⟨j, hj1, by simp only [runPairs, hs1]; exact hj2⟩

theorem runSteps_ok (sim : TradingSimulator) (mode : String) (avec : List Actions)
    (hm : mode = Strategy.CLOSE ∨ mode = Strategy.AVERAGE) :
    ∀ (ts : List ℕ) (s : SimState),
      (∀ t ∈ ts, ∀ p ∈ avec.getD t [], (sim.candles.lookup p.1).isSome) →
      ∃ s2, runSteps sim mode avec s ts = .ok s2 := by
  intro ts
  induction ts with
  | nil => exact fun s _ => ⟨s, rfl⟩
  | cons t rest ih =>
    intro s hall
    obtain ⟨s1, hs1⟩ := runPairs_ok sim mode t hm (avec.getD t [])
      { s with step_pnl := 0 } (hall t (List.mem_cons_self _ _))
    obtain ⟨s2, hs2⟩ := ih _ (fun u hu => hall u (List.mem_cons_of_mem _ hu))
    exact ⟨s2, by simp only [runSteps, simStep, hs1]; exact hs2⟩

theorem runSteps_err (sim : TradingSimulator) (mode : String) (avec : List Actions)
    (hm : mode = Strategy.CLOSE ∨ mode = Strategy.AVERAGE) :
    ∀ (ts : List ℕ) (s : SimState),
      (∃ t ∈ ts, ∃ p ∈ avec.getD t [], sim.candles.lookup p.1 = none) →
      ∃ j, sim.candles.lookup j = none ∧
        runSteps sim mode avec s ts = .error (unknownInstrumentMsg j) := by
  intro ts
  induction ts with
  | nil =>
    rintro s ⟨t, ht, -⟩
    exact absurd ht (List.not_mem_nil t)
  | cons t rest ih =>
    rintro s ⟨u, hu, p, hp, hpn⟩
    by_cases hbad : ∃ q ∈ avec.getD t [], sim.candles.lookup q.1 = none
    · obtain ⟨j, hj1, hj2⟩ := runPairs_err sim mode t hm (avec.getD t [])
        { s with step_pnl := 0 } hbad
      exact ⟨j, hj1, by simp only [runSteps, simStep, hj2]⟩
    · push_neg at hbad
      have hall : ∀ q ∈ avec.getD t [], (sim.candles.lookup q.1).isSome :=
        fun q hq => Option.ne_none_iff_isSome.mp (hbad q hq)
      obtain ⟨s1, hs1⟩ := runPairs_ok sim mode t hm (avec.getD t [])
        { s with step_pnl := 0 } hall
      have hurest : u ∈ rest := by
        rcases List.mem_cons.mp hu with rfl | h
        · exact absurd hpn (hbad p hp)
        · exact h
      obtain ⟨j, hj1, hj2⟩ := ih _ ⟨u, hurest, p, hp, hpn⟩
      exact ⟨j, hj1, by simp only [runSteps, simStep, hs1]; exact hj2⟩

/-- Claim C9: every `(instrument, action)` pair processed at a simulation
step whose instrument is not among the candle series of the simulator makes the
simulation raise the unknown-instrument error (it is not silently
skipped). -/
theorem claim_C9 (sim : TradingSimulator) (strat : Strategy)
    (hm : strat.mode = Strategy.CLOSE ∨ strat.mode = Strategy.AVERAGE)
    (hbad : ∃ t, t < simLength sim strat - 1 ∧
      ∃ p ∈ strat.actions_vector.getD t [], sim.candles.lookup p.1 = none) :
    ∃ j, sim.candles.lookup j = none ∧
      _simulate_strategy sim strat = .error (unknownInstrumentMsg j) := by
  obtain ⟨t, ht, p, hp, hpn⟩ := hbad
  obtain ⟨j, hj1, hj2⟩ := runSteps_err sim strat.mode strat.actions_vector hm
    (List.range (simLength sim strat - 1)) initState
    ⟨t, List.mem_range.mpr ht, p, hp, hpn⟩
  refine ⟨j, hj1, ?_⟩
  have hcore : simulateCore sim strat = .error (unknownInstrumentMsg j) := hj2
  simp only [_simulate_strategy, hcore]

/-- Claim C9, witness: an action on the unregistered instrument `b` makes
the simulation fail with the unknown-instrument error. -/
theorem claim_C9_witness :
    ∃ j, simC4.candles.lookup j = none ∧
      _simulate_strategy simC4 stratC9 = .error (unknownInstrumentMsg j) :=
  claim_C9 simC4 stratC9 (Or.inl rfl)
    ⟨0, by decide, ("b", ⟨1⟩), by decide, by decide⟩

theorem applyTrade_inv (N : String → Prop) (s : SimState) (instr : String)
    (action : Action) (ap lt : ℚ) (hs : keysInv N s) (hN : N instr) :
    keysInv N (applyTrade s instr action ap lt) := by
  obtain ⟨hf, ha⟩ := hs
  unfold applyTrade
  by_cases h1 : action.quantity > 0
  · simp only [h1, if_true]
    by_cases h2 : getD0 s.curr_position instr ≤ 0
    · simp only [h2, if_true]
      exact ⟨bump_one_inv N s.position_flips instr hf hN, ha⟩
    · simp only [h2, if_false]
      exact ⟨hf, ha⟩
  · simp only [h1, if_false]
    by_cases h3 : action.quantity < 0
    · simp only [h3, if_true]
      by_cases h2 : getD0 s.curr_position instr ≥ 0
      · simp only [h2, if_true]
        exact ⟨bump_one_inv N s.position_flips instr hf hN, ha⟩
      · simp only [h2, if_false]
        exact ⟨hf, ha⟩
    · simp only [h3, if_false]
      exact ⟨hf, bump_one_inv N s.avg_holding_time instr ha hN⟩

theorem applyAction_inv (sim : TradingSimulator) (mode : String) (t : ℕ)
    (s : SimState) (p : String × Action) (s2 : SimState) (N : String → Prop)
    (hok : applyAction sim mode t s p = .ok s2) (hs : keysInv N s) (hN : N p.1) :
    keysInv N s2 := by
  unfold applyAction at hok
  cases hg : _is_action_within_candles sim p.1 (t + 1) with
  | error e => rw [hg] at hok; cases hok
  | ok b =>
    rw [hg] at hok
    cases b with
    | false =>
      have hss : s = s2 := Except.ok.inj hok
      exact hss ▸ hs
    | true =>
      cases hp1 : _action_price sim p.1 mode p.2.quantity t with
      | error e => rw [hp1] at hok; cases hok
      | ok ap =>
        rw [hp1] at hok
        cases hp2 : _action_price sim p.1 mode p.2.quantity (t + 1) with
        | error e => rw [hp2] at hok; cases hok
        | ok lt' =>
          rw [hp2] at hok
          have hs2 : applyTrade
              { (if ap = 0 then
                  { s with avg_holding_time := bump s.avg_holding_time p.1 1 }
                 else s) with
                traded_volume := (if ap = 0 then
                  { s with avg_holding_time := bump s.avg_holding_time p.1 1 }
                 else s).traded_volume + (p.2.quantity.natAbs : ℤ) }
              p.1 p.2 ap lt' = s2 := Except.ok.inj hok
          rw [← hs2]
          apply applyTrade_inv N _ p.1 p.2 ap lt' _ hN
          by_cases hap : ap = 0
          · simp only [hap, if_true]
            exact ⟨hs.1, bump_one_inv N s.avg_holding_time p.1 hs.2 hN⟩
          · simp only [hap, if_false]
            exact hs

theorem runPairs_inv (sim : TradingSimulator) (mode : String) (t : ℕ)
    (N : String → Prop) :
    ∀ (pairs : Actions) (s s2 : SimState), (∀ p ∈ pairs, N p.1) →
      runPairs sim mode t s pairs = .ok s2 → keysInv N s → keysInv N s2 := by
  intro pairs
  induction pairs with
  | nil =>
    intro s s2 _ hok hs
    exact (Except.ok.inj hok) ▸ hs
  | cons p rest ih =>
    intro s s2 hnamed hok hs
    rw [runPairs] at hok
    cases happ : applyAction sim mode t s p with
    | error e => rw [happ] at hok; cases hok
    | ok s1 =>
      rw [happ] at hok
      exact ih s1 s2 (fun q hq => hnamed q (List.mem_cons_of_mem _ hq)) hok
        (applyAction_inv sim mode t s p s1 N happ hs
          (hnamed p (List.mem_cons_self _ _)))

theorem simStep_inv (sim : TradingSimulator) (mode : String) (avec : List Actions)
    (N : String → Prop) (s : SimState) (t : ℕ) (s2 : SimState)
    (hnamed : ∀ p ∈ avec.getD t [], N p.1)
    (hok : simStep sim mode avec s t = .ok s2) (hs : keysInv N s) :
    keysInv N s2 := by
  rw [simStep] at hok
  cases hrp : runPairs sim mode t { s with step_pnl := 0 } (avec.getD t []) with
  | error e => rw [hrp] at hok; cases hok
  | ok s1 =>
    rw [hrp] at hok
    have h1 : keysInv N s1 :=
      runPairs_inv sim mode t N (avec.getD t []) { s with step_pnl := 0 } s1
        hnamed hrp hs
    exact (Except.ok.inj hok) ▸ h1

theorem runSteps_inv (sim : TradingSimulator) (mode : String) (avec : List Actions)
    (N : String → Prop) :
    ∀ (ts : List ℕ) (s s2 : SimState),
      (∀ t ∈ ts, ∀ p ∈ avec.getD t [], N p.1) →
      runSteps sim mode avec s ts = .ok s2 → keysInv N s → keysInv N s2 := by
  intro ts
  induction ts with
  | nil =>
    intro s s2 _ hok hs
    exact (Except.ok.inj hok) ▸ hs
  | cons t rest ih =>
    intro s s2 hnamed hok hs
    rw [runSteps] at hok
    cases hst : simStep sim mode avec s t with
    | error e => rw [hst] at hok; cases hok
    | ok s1 =>
      rw [hst] at hok
      exact ih s1 s2 (fun u hu => hnamed u (List.mem_cons_of_mem _ hu)) hok
        (simStep_inv sim mode avec N s t s1
          (hnamed t (List.mem_cons_self _ _)) hst hs)

/-- Claim C10: position_flips holds a key only for instruments that flipped
at least once and holding_time_percent only for instruments whose
holding-time counter was incremented at least once; every key appearing in
either mapping is named by some processed `(instrument, action)` pair, so an
instrument never named in any processed action is absent from both (not
mapped to 0). -/
theorem claim_C10 (sim : TradingSimulator) (strat : Strategy) (core : SimState)
    (hcore : simulateCore sim strat = .ok core) :
    (∀ p ∈ core.position_flips, 1 ≤ p.2 ∧ namedInProcessed sim strat p.1) ∧
    (∀ p ∈ core.avg_holding_time, 1 ≤ p.2 ∧ namedInProcessed sim strat p.1) ∧
    ∀ stats, _simulate_strategy sim strat = .ok stats →
      stats.position_flips = core.position_flips ∧
      stats.holding_time_percent.map Prod.fst =
        core.avg_holding_time.map Prod.fst := by
  have hinv : keysInv (namedInProcessed sim strat) core := by
    refine runSteps_inv sim strat.mode strat.actions_vector _
      (List.range (simLength sim strat - 1)) initState core ?_ hcore ?_
    · intro t ht p hp
      exact ⟨t, List.mem_range.mp ht, p.2, hp⟩
    · exact ⟨fun p hp => absurd hp (List.not_mem_nil p),
        fun p hp => absurd hp (List.not_mem_nil p)⟩
  refine ⟨hinv.1, hinv.2, ?_⟩
  intro stats hst
  simp only [_simulate_strategy, hcore] at hst
  have hrec := Except.ok.inj hst
  subst hrec
  exact ⟨rfl, by simp [List.map_map, Function.comp]⟩

/-- Claim C10, witness: one processed hold step on instrument `a` (close
price 3, so a single increment) leaves `avg_holding_time = [(a, 1)]` and no
flips; the key-set claim instantiated there. -/
theorem claim_C10_witness :
    (∀ p ∈ coreC10.position_flips, 1 ≤ p.2 ∧ namedInProcessed simC4 stratC10 p.1) ∧
    (∀ p ∈ coreC10.avg_holding_time, 1 ≤ p.2 ∧ namedInProcessed simC4 stratC10 p.1) ∧
    ∀ stats, _simulate_strategy simC4 stratC10 = .ok stats →
      stats.position_flips = coreC10.position_flips ∧
      stats.holding_time_percent.map Prod.fst =
        coreC10.avg_holding_time.map Prod.fst :=
  claim_C10 simC4 stratC10 coreC10 (by
    norm_num [simulateCore, simLength, maxLen, CandleSeries.length, runSteps,
      simStep, runPairs, applyAction, applyTrade, _is_action_within_candles,
      _action_price, initState, bump, getD0, simC4, csC4, stratC10, candleC,
      getCandle, Strategy.CLOSE, Strategy.AVERAGE, coreC10, List.lookup,
      List.range_succ])

/-- Claim C4, as amended: for every non-skipped `(instrument, action)` pair,
the holding-time counter of the instrument grows by
`(1 if the entry action price is 0) + (1 if quantity is 0)` — so a hold
whose entry price is nonzero increments by exactly one, a hold whose entry
price is 0 (always the case in average mode) increments by two, and a
nonzero-quantity pair increments exactly when its entry price is 0.  A hold
contributes nothing to the step P&L, the position flips or the tracked
position state. -/
theorem claim_C4 (sim : TradingSimulator) (mode : String) (t : ℕ) (s : SimState)
    (p : String × Action) (cs : CandleSeries)
    (hm : mode = Strategy.CLOSE ∨ mode = Strategy.AVERAGE)
    (hcs : sim.candles.lookup p.1 = some cs)
    (hin : t + 1 < cs.length) :
    ∃ s2, applyAction sim mode t s p = .ok s2 ∧
      getD0 s2.avg_holding_time p.1 =
        getD0 s.avg_holding_time p.1
          + (if actionPriceVal sim p.1 mode p.2.quantity t = 0 then 1 else 0)
          + (if p.2.quantity = 0 then 1 else 0) ∧
      (p.2.quantity = 0 →
        s2.step_pnl = s.step_pnl ∧ s2.position_flips = s.position_flips ∧
        s2.curr_position = s.curr_position) := by
  have hd : decide (t + 1 < cs.length) = true := decide_eq_true hin
  have havg : ∀ (Y : SimState) (lt' : ℚ),
      (applyTrade Y p.1 p.2 (actionPriceVal sim p.1 mode p.2.quantity t) lt').avg_holding_time
        = if p.2.quantity = 0 then bump Y.avg_holding_time p.1 1
          else Y.avg_holding_time := by
    intro Y lt'
    unfold applyTrade
    by_cases h1 : p.2.quantity > 0
    · have h0 : ¬(p.2.quantity = 0) := by omega
      simp only [h1, if_true, h0, if_false]
      by_cases h2 : getD0 Y.curr_position p.1 ≤ 0 <;> simp [h2]
    · by_cases h3 : p.2.quantity < 0
      · have h0 : ¬(p.2.quantity = 0) := by omega
        simp only [h1, if_false, h3, if_true, h0]
        by_cases h2 : getD0 Y.curr_position p.1 ≥ 0 <;> simp [h2]
      · have h0 : p.2.quantity = 0 := by omega
        simp [h1, h3, h0]
  have hhold : p.2.quantity = 0 → ∀ (Y : SimState) (lt' : ℚ),
      (applyTrade Y p.1 p.2 (actionPriceVal sim p.1 mode p.2.quantity t) lt').step_pnl
          = Y.step_pnl ∧
      (applyTrade Y p.1 p.2 (actionPriceVal sim p.1 mode p.2.quantity t) lt').position_flips
          = Y.position_flips ∧
      (applyTrade Y p.1 p.2 (actionPriceVal sim p.1 mode p.2.quantity t) lt').curr_position
          = Y.curr_position := by
    intro h0 Y lt'
    unfold applyTrade
    simp [h0]
  simp only [applyAction, _is_action_within_candles, hcs, hd,
    action_price_ok sim p.1 mode p.2.quantity t hm,
    action_price_ok sim p.1 mode p.2.quantity (t + 1) hm]
  refine ⟨_, rfl, ?_, ?_⟩
  · rw [havg]
    by_cases hq0 : p.2.quantity = 0
    · simp only [if_pos hq0, getD0_bump]
      by_cases hap : actionPriceVal sim p.1 mode p.2.quantity t = 0
      · simp only [if_pos hap, getD0_bump]
        simp
      · simp only [if_neg hap]
        simp
    · simp only [if_neg hq0]
      by_cases hap : actionPriceVal sim p.1 mode p.2.quantity t = 0
      · simp only [if_pos hap, getD0_bump]
        simp
      · simp only [if_neg hap]
        simp
  · intro hq0
    obtain ⟨hsp, hfl, hcu⟩ := hhold hq0 _ (actionPriceVal sim p.1 mode p.2.quantity (t + 1))
    refine ⟨?_, ?_, ?_⟩
    · rw [hsp]
      by_cases hap : actionPriceVal sim p.1 mode p.2.quantity t = 0 <;> simp [hap]
    · rw [hfl]
      by_cases hap : actionPriceVal sim p.1 mode p.2.quantity t = 0 <;> simp [hap]
    · rw [hcu]
      by_cases hap : actionPriceVal sim p.1 mode p.2.quantity t = 0 <;> simp [hap]

/-- Claim C4, counterexample: a single processed hold pair in average mode
(zero entry price) increments the holding-time counter by 2, not by exactly
one: after the one processed step of `stratC4` the counter of `a` is 2. -/
theorem claim_C4_counterexample :
    (simulateCore simC4 stratC4).toOption.map
      (fun s => getD0 s.avg_holding_time "a") = some 2 ∧ (2 : ℤ) ≠ 1 := by
  have hne : ("average" : String) ≠ "close" := by decide
  constructor
  · norm_num [simulateCore, simLength, maxLen, CandleSeries.length, runSteps,
      simStep, runPairs, applyAction, applyTrade, _is_action_within_candles,
      _action_price, initState, bump, getD0, simC4, csC4, stratC4, candleC,
      getCandle, Strategy.CLOSE, Strategy.AVERAGE, List.lookup,
      List.range_succ, hne]
    exact ⟨_, rfl, rfl⟩
  · decide

/-- Claim C4, witness: the amended per-pair characterization instantiated on
a close-mode hold pair with nonzero close price (entry price `3 ≠ 0`, so the
counter grows by exactly one and nothing else changes). -/
theorem claim_C4_witness :
    ∃ s2, applyAction simC4 Strategy.CLOSE 0 initState ("a", ⟨0⟩) = .ok s2 ∧
      getD0 s2.avg_holding_time "a" =
        getD0 initState.avg_holding_time "a"
          + (if actionPriceVal simC4 "a" Strategy.CLOSE 0 0 = 0 then 1 else 0)
          + (if (0 : ℤ) = 0 then 1 else 0) ∧
      ((0 : ℤ) = 0 →
        s2.step_pnl = initState.step_pnl ∧
        s2.position_flips = initState.position_flips ∧
        s2.curr_position = initState.curr_position) :=
  claim_C4 simC4 Strategy.CLOSE 0 initState ("a", ⟨0⟩) csC4 (Or.inl rfl)
    (by decide) (by decide)

theorem applyAction_hold (sim : TradingSimulator) (mode : String) (t : ℕ)
    (s : SimState) (p : String × Action) (cs : CandleSeries)
    (hm : mode = Strategy.CLOSE ∨ mode = Strategy.AVERAGE)
    (hcs : sim.candles.lookup p.1 = some cs)
    (hq : p.2.quantity = 0) :
    ∃ s2, applyAction sim mode t s p = .ok s2 ∧
      s2.pnl = s.pnl ∧ s2.max_pnl = s.max_pnl ∧
      s2.traded_volume = s.traded_volume ∧ s2.max_drawdown = s.max_drawdown ∧
      s2.position_flips = s.position_flips ∧ s2.curr_position = s.curr_position ∧
      s2.step_pnl = s.step_pnl ∧ s2.pnl_steps = s.pnl_steps ∧
      (∀ i, getD0 s2.avg_holding_time i = getD0 s.avg_holding_time i +
        (if p.1 = i ∧ withinB sim i (t + 1) = true
         then holdInc sim mode t i else 0)) ∧
      ((s.avg_holding_time.map Prod.fst).Nodup →
        (s2.avg_holding_time.map Prod.fst).Nodup) := by
  by_cases hin : t + 1 < cs.length
  · have hd : decide (t + 1 < cs.length) = true := decide_eq_true hin
    have hw : withinB sim p.1 (t + 1) = true := by
      simp [withinB, hcs, hin]
    have hna : (p.2.quantity.natAbs : ℤ) = 0 := by rw [hq]; rfl
    have htr : ∀ (Y : SimState) (ap lt' : ℚ),
        applyTrade Y p.1 p.2 ap lt' =
          { Y with avg_holding_time := bump Y.avg_holding_time p.1 1 } := by
      intro Y ap lt'
      unfold applyTrade
      simp [hq]
    have hap0 : actionPriceVal sim p.1 mode p.2.quantity t =
        actionPriceVal sim p.1 mode 0 t := by rw [hq]
    simp only [applyAction, _is_action_within_candles, hcs, hd,
      action_price_ok sim p.1 mode p.2.quantity t hm,
      action_price_ok sim p.1 mode p.2.quantity (t + 1) hm, htr, hna]
    by_cases hap : actionPriceVal sim p.1 mode p.2.quantity t = 0
    · simp only [if_pos hap]
      refine ⟨_, rfl, rfl, rfl, ?_, rfl, rfl, rfl, rfl, rfl, ?_, ?_⟩
      · show s.traded_volume + 0 = s.traded_volume
        ring
      · intro i
        by_cases hi : p.1 = i
        · subst hi
          show getD0 (bump (bump s.avg_holding_time p.1 1) p.1 1) p.1 = _
          rw [getD0_bump, if_pos rfl, getD0_bump, if_pos rfl]
          rw [if_pos ⟨rfl, hw⟩]
          rw [holdInc, ← hap0, if_pos hap]
          ring
        · have hne : ¬ i = p.1 := fun h => hi h.symm
          show getD0 (bump (bump s.avg_holding_time p.1 1) p.1 1) i = _
          rw [getD0_bump, if_neg hne, getD0_bump, if_neg hne]
          rw [if_neg (fun hc => hi hc.1)]
          ring
      · intro hnd
        exact nodupKeys_bump _ _ _ (nodupKeys_bump _ _ _ hnd)
    · simp only [if_neg hap]
      refine ⟨_, rfl, rfl, rfl, ?_, rfl, rfl, rfl, rfl, rfl, ?_, ?_⟩
      · show s.traded_volume + 0 = s.traded_volume
        ring
      · intro i
        by_cases hi : p.1 = i
        · subst hi
          show getD0 (bump s.avg_holding_time p.1 1) p.1 = _
          rw [getD0_bump, if_pos rfl]
          rw [if_pos ⟨rfl, hw⟩]
          rw [holdInc, ← hap0, if_neg hap]
          ring
        · have hne : ¬ i = p.1 := fun h => hi h.symm
          show getD0 (bump s.avg_holding_time p.1 1) i = _
          rw [getD0_bump, if_neg hne]
          rw [if_neg (fun hc => hi hc.1)]
      · intro hnd
        exact nodupKeys_bump _ _ _ hnd
  · have hd : decide (t + 1 < cs.length) = false := decide_eq_false hin
    have hw : withinB sim p.1 (t + 1) = false := by
      simp [withinB, hcs, hin]
    simp only [applyAction, _is_action_within_candles, hcs, hd]
    refine ⟨s, rfl, rfl, rfl, rfl, rfl, rfl, rfl, rfl, rfl, ?_, fun h => h⟩
    intro i
    by_cases hi : p.1 = i
    · subst hi
      rw [if_neg (fun hc => by rw [hw] at hc; cases hc.2)]
      ring
    · rw [if_neg (fun hc => hi hc.1)]
      ring

theorem runPairs_hold (sim : TradingSimulator) (mode : String) (t : ℕ)
    (hm : mode = Strategy.CLOSE ∨ mode = Strategy.AVERAGE) :
    ∀ (pairs : Actions) (s : SimState),
      (∀ p ∈ pairs, (sim.candles.lookup p.1).isSome) →
      (∀ p ∈ pairs, p.2.quantity = 0) →
      ∃ s2, runPairs sim mode t s pairs = .ok s2 ∧
        s2.pnl = s.pnl ∧ s2.max_pnl = s.max_pnl ∧
        s2.traded_volume = s.traded_volume ∧ s2.max_drawdown = s.max_drawdown ∧
        s2.position_flips = s.position_flips ∧ s2.curr_position = s.curr_position ∧
        s2.step_pnl = s.step_pnl ∧ s2.pnl_steps = s.pnl_steps ∧
        (∀ i, getD0 s2.avg_holding_time i =
          getD0 s.avg_holding_time i + stepHoldContrib sim mode pairs t i) ∧
        ((s.avg_holding_time.map Prod.fst).Nodup →
          (s2.avg_holding_time.map Prod.fst).Nodup) := by
  intro pairs
  induction pairs with
  | nil =>
    intro s _ _
    refine ⟨s, rfl, rfl, rfl, rfl, rfl, rfl, rfl, rfl, rfl, ?_, fun h => h⟩
    intro i
    simp [stepHoldContrib]
  | cons p rest ih =>
    intro s hknown hhold
    obtain ⟨cs, hcs⟩ := Option.isSome_iff_exists.mp
      (hknown p (List.mem_cons_self _ _))
    obtain ⟨s1, e1, a1, a2, a3, a4, a5, a6, a7, a8, havg1, hnd1⟩ :=
      applyAction_hold sim mode t s p cs hm hcs (hhold p (List.mem_cons_self _ _))
    obtain ⟨s2, e2, b1, b2, b3, b4, b5, b6, b7, b8, havg2, hnd2⟩ :=
      ih s1 (fun q hq => hknown q (List.mem_cons_of_mem _ hq))
        (fun q hq => hhold q (List.mem_cons_of_mem _ hq))
    refine ⟨s2, by simp only [runPairs, e1]; exact e2,
      b1.trans a1, b2.trans a2, b3.trans a3, b4.trans a4, b5.trans a5,
      b6.trans a6, b7.trans a7, b8.trans a8, ?_, fun h => hnd2 (hnd1 h)⟩
    intro i
    rw [havg2 i, havg1 i]
    simp only [stepHoldContrib, List.map_cons, List.sum_cons]
    ring

theorem mem_getD_actions (avec : List Actions) (t : ℕ) (p : String × Action)
    (hp : p ∈ avec.getD t []) : ∃ acts ∈ avec, p ∈ acts := by
  by_cases h : t < avec.length
  · rw [List.getD_eq_getElem?_getD, List.getElem?_eq_getElem h] at hp
    exact ⟨avec[t], List.getElem_mem h, hp⟩
  · rw [List.getD_eq_getElem?_getD, List.getElem?_eq_none (by omega)] at hp
    exact absurd hp (List.not_mem_nil p)

theorem runSteps_hold (sim : TradingSimulator) (mode : String)
    (avec : List Actions)
    (hm : mode = Strategy.CLOSE ∨ mode = Strategy.AVERAGE)
    (hknown : ∀ acts ∈ avec, ∀ p ∈ acts, (sim.candles.lookup p.1).isSome)
    (hhold : ∀ acts ∈ avec, ∀ p ∈ acts, p.2.quantity = 0) :
    ∀ (ts : List ℕ) (s : SimState),
      s.pnl = 0 → s.max_pnl = 0 → s.max_drawdown = 0 →
      ∃ s2, runSteps sim mode avec s ts = .ok s2 ∧
        s2.pnl = 0 ∧ s2.max_pnl = 0 ∧ s2.max_drawdown = 0 ∧
        s2.traded_volume = s.traded_volume ∧
        s2.position_flips = s.position_flips ∧
        s2.curr_position = s.curr_position ∧
        (∀ i, getD0 s2.avg_holding_time i = getD0 s.avg_holding_time i +
          ((ts.map (fun u => stepHoldContrib sim mode (avec.getD u []) u i)).sum)) ∧
        ((s.avg_holding_time.map Prod.fst).Nodup →
          (s2.avg_holding_time.map Prod.fst).Nodup) := by
  intro ts
  induction ts with
  | nil =>
    intro s hp hmx hdd
    exact ⟨s, rfl, hp, hmx, hdd, rfl, rfl, rfl, fun i => by simp, fun h => h⟩
  | cons t rest ih =>
    intro s hp hmx hdd
    obtain ⟨s1, e1, a1, a2, a3, a4, a5, a6, a7, a8, havg1, hnd1⟩ :=
      runPairs_hold sim mode t hm (avec.getD t []) { s with step_pnl := 0 }
        (fun q hq => by
          obtain ⟨acts, hacts, hq2⟩ := mem_getD_actions avec t q hq
          exact hknown acts hacts q hq2)
        (fun q hq => by
          obtain ⟨acts, hacts, hq2⟩ := mem_getD_actions avec t q hq
          exact hhold acts hacts q hq2)
    have hs1pnl : s1.pnl = 0 := a1.trans hp
    have hs1max : s1.max_pnl = 0 := a2.trans hmx
    have hs1dd : s1.max_drawdown = 0 := a4.trans hdd
    have hs1step : s1.step_pnl = 0 := a7
    obtain ⟨s2, e2, b1, b2, b3, b4, b5, b6, havg2, hnd2⟩ :=
      ih ({ s1 with
              pnl := s1.pnl + s1.step_pnl
              max_pnl := max s1.max_pnl (s1.pnl + s1.step_pnl)
              max_drawdown := max s1.max_drawdown
                (max s1.max_pnl (s1.pnl + s1.step_pnl) - (s1.pnl + s1.step_pnl))
              pnl_steps := s1.pnl_steps ++ [s1.step_pnl] })
        (by simp [hs1pnl, hs1step])
        (by simp [hs1pnl, hs1step, hs1max])
        (by simp [hs1pnl, hs1step, hs1max, hs1dd])
    refine ⟨s2, ?_, b1, b2, b3, b4.trans a3, b5.trans a5, b6.trans a6, ?_, ?_⟩
    · simp only [runSteps, simStep, e1]
      exact e2
    · intro i
      rw [havg2 i]
      show getD0 s1.avg_holding_time i + _ = _
      rw [havg1 i]
      show getD0 s.avg_holding_time i + _ + _ = _
      simp only [List.map_cons, List.sum_cons]
      ring
    · intro h
      exact hnd2 (hnd1 h)

/-- Claim C3, as amended: for every valid-mode strategy all of whose actions
have quantity 0 (on instruments the simulator knows), simulate succeeds with
pnl = 0, traded_volume = 0, position_flips empty, and, for every instrument
in `holding_time_percent`, a value of
`holdCount / min(instrument series length, actions length)` — the counter
gains 1 per processed hold step plus 1 more whenever the entry action price
is 0 (always in average mode) — which is NOT 1.0 in general. -/
theorem claim_C3 (sim : TradingSimulator) (strat : Strategy)
    (hm : strat.mode = Strategy.CLOSE ∨ strat.mode = Strategy.AVERAGE)
    (hknown : ∀ acts ∈ strat.actions_vector, ∀ p ∈ acts,
      (sim.candles.lookup p.1).isSome)
    (hhold : ∀ acts ∈ strat.actions_vector, ∀ p ∈ acts, p.2.quantity = 0) :
    ∃ stats, _simulate_strategy sim strat = .ok stats ∧
      stats.pnl = 0 ∧ stats.traded_volume = 0 ∧ stats.position_flips = [] ∧
      ∀ p ∈ stats.holding_time_percent,
        p.2 = (holdCount sim strat.mode strat.actions_vector
                (simLength sim strat) p.1 : ℚ) /
          ((min ((sim.candles.lookup p.1).getD default).length
              strat.actions_vector.length : ℕ) : ℚ) := by
  obtain ⟨s2, e2, hpnl, hmax, hdd, hvol, hflips, hcurr, havg, hnd⟩ :=
    runSteps_hold sim strat.mode strat.actions_vector hm hknown hhold
      (List.range (simLength sim strat - 1)) initState rfl rfl rfl
  have hcore : simulateCore sim strat = .ok s2 := e2
  have hnd2 : (s2.avg_holding_time.map Prod.fst).Nodup := hnd (by simp [initState])
  simp only [_simulate_strategy, hcore]
  refine ⟨_, rfl, hpnl, hvol, hflips, ?_⟩
  intro p hp
  obtain ⟨q, hq, hqp⟩ := List.mem_map.mp hp
  have hq2 : getD0 s2.avg_holding_time q.1 = q.2 := mem_getD0 _ q hnd2 hq
  have hcnt : getD0 s2.avg_holding_time q.1 =
      holdCount sim strat.mode strat.actions_vector (simLength sim strat) q.1 := by
    rw [havg q.1]
    simp [initState, getD0, List.lookup, holdCount]
  rw [← hqp]
  show (q.2 : ℚ) / _ = _
  rw [← hq2, hcnt]

/-- Claim C3, counterexample: the all-hold close-mode strategy `stratC3` on
the 3-candle series (nonzero closes) gets holding_time_percent 2/3 for `a`
(2 processed hold steps over `min(3, 3)`), not 1.0. -/
theorem claim_C3_counterexample :
    (_simulate_strategy simC3 stratC3).toOption.map
      (fun st => st.holding_time_percent) = some [("a", 2 / 3)] ∧
    ((2 : ℚ) / 3) ≠ 1 := by
  have hcore : simulateCore simC3 stratC3 =
      .ok ⟨0, 0, 0, 0, [], [("a", 2)], [], 0, [0, 0]⟩ := by
    norm_num [simulateCore, simLength, maxLen, CandleSeries.length, runSteps,
      simStep, runPairs, applyAction, applyTrade, _is_action_within_candles,
      _action_price, initState, bump, getD0, simC3, csC3, stratC3, candleC,
      getCandle, Strategy.CLOSE, List.lookup, List.range_succ]
  constructor
  · simp only [_simulate_strategy, hcore]
    norm_num [simC3, csC3, stratC3, CandleSeries.length, List.lookup,
      Except.toOption]
  · norm_num

/-- Claim C3, witness: the amended claim instantiated on `simC3` and the
all-hold strategy `stratC3`. -/
theorem claim_C3_witness :
    ∃ stats, _simulate_strategy simC3 stratC3 = .ok stats ∧
      stats.pnl = 0 ∧ stats.traded_volume = 0 ∧ stats.position_flips = [] ∧
      ∀ p ∈ stats.holding_time_percent,
        p.2 = (holdCount simC3 stratC3.mode stratC3.actions_vector
                (simLength simC3 stratC3) p.1 : ℚ) /
          ((min ((simC3.candles.lookup p.1).getD default).length
              stratC3.actions_vector.length : ℕ) : ℚ) :=
  claim_C3 simC3 stratC3 (Or.inl rfl) (by decide) (by decide)

/-- Claim C6: on a single instrument with a 3-candle series whose close
prices are 10, 12, 11, a close-mode strategy buying quantity 1 at step 0 and
holding afterwards earns pnl = (12 - 10) * 1 = 2, trades volume 1, and flips
the position once. -/
theorem claim_C6 (instr nm : String) (c0 c1 c2 : Candle) (w : ℤ)
    (strats : List (String × Strategy))
    (h0 : c0.close = 10) (h1 : c1.close = 12) (h2 : c2.close = 11) :
    ∃ stats,
      _simulate_strategy ⟨[(instr, ⟨[c0, c1, c2], w⟩)], strats⟩
        ⟨nm, Strategy.CLOSE, [[(instr, ⟨1⟩)], [(instr, ⟨0⟩)], [(instr, ⟨0⟩)]]⟩
        = .ok stats ∧
      stats.pnl = 2 ∧ stats.traded_volume = 1 ∧
      stats.position_flips = [(instr, 1)] := by
  have hcore : simulateCore ⟨[(instr, ⟨[c0, c1, c2], w⟩)], strats⟩
      ⟨nm, Strategy.CLOSE, [[(instr, ⟨1⟩)], [(instr, ⟨0⟩)], [(instr, ⟨0⟩)]]⟩
      = .ok ⟨2, 2, 1, 0, [(instr, 1)], [(instr, 1)], [(instr, 1)], 0, [2, 0]⟩ := by
    norm_num [simulateCore, simLength, maxLen, CandleSeries.length, runSteps,
      simStep, runPairs, applyAction, applyTrade, _is_action_within_candles,
      _action_price, initState, bump, setEntry, getD0, getCandle,
      Strategy.CLOSE, List.lookup, List.range_succ, h0, h1, h2, max_def]
  simp only [_simulate_strategy, hcore]
  exact ⟨_, rfl, rfl, rfl, rfl⟩

/-- Claim C6, witness: the end-to-end scenario instantiated on concrete
candles with close prices 10, 12, 11. -/
theorem claim_C6_witness :
    ∃ stats,
      _simulate_strategy ⟨[("a", ⟨[candleC 10, candleC 12, candleC 11], 1⟩)], []⟩
        ⟨"e2e", Strategy.CLOSE, [[("a", ⟨1⟩)], [("a", ⟨0⟩)], [("a", ⟨0⟩)]]⟩
        = .ok stats ∧
      stats.pnl = 2 ∧ stats.traded_volume = 1 ∧
      stats.position_flips = [("a", 1)] :=
  claim_C6 "a" "e2e" (candleC 10) (candleC 12) (candleC 11) 1 [] rfl rfl rfl

/-- Claim C1, counterexample: with `ticksC1` and window 1 ms, the empty
window 1 gets `open = 15`, the linear interpolation midpoint of its
neighbours 10 and 20, not the claimed 0. -/
theorem claim_C1_counterexample :
    ((_gen_cnd ticksC1 1).toOption.map (fun cs => (getCandle cs 1).open_))
      = some 15 ∧ (15 : ℚ) ≠ 0 := by
  have hrows : candleRows 1000 ticksC1 =
      [⟨10, 10, 10, 10, 10, 0, 1, 0⟩, ⟨15, 15, 15, 15, 0, 0, 0, 0⟩,
       ⟨20, 20, 20, 20, 20, 0, 1, 0⟩] := by
    norm_num [candleRows, nBins, minBin, maxBin, binOf, ticksIn, ticksC1,
      rawOpen, rawHigh, rawLow, rawClose, sideTicks, avgPrice, sideVolume,
      interpolateColumn, interpGo, interpRun, List.range_succ, List.min?,
      List.max?, List.filter_cons, List.filter_nil, List.getLast?]
    decide
  have hgen : _gen_cnd ticksC1 1 = .ok csC1 := rfl
  constructor
  · rw [hgen]
    simp [getCandle, csC1, hrows]
    exact ⟨_, rfl, rfl⟩
  · norm_num

/-- Claim C1, as amended: a window with zero trades yields a candle whose
`avg_buy_price`, `avg_sell_price`, `buy_volume` and `sell_volume` are
exactly 0 (its OHLC fields are linearly interpolated from the neighbouring
candles instead of being zero-filled). -/
theorem claim_C1 (ticks : List Tick) (window_ms : ℤ) (cs : CandleSeries) (i : ℕ)
    (hcs : _gen_cnd ticks window_ms = .ok cs)
    (hi : i < cs.data.length)
    (hempty : ticksIn (window_ms.toNat * 1000) ticks
      (minBin (window_ms.toNat * 1000) ticks + i) = []) :
    (getCandle cs i).avg_buy_price = 0 ∧ (getCandle cs i).avg_sell_price = 0 ∧
    (getCandle cs i).buy_volume = 0 ∧ (getCandle cs i).sell_volume = 0 := by
  have hdata : cs.data = candleRows (window_ms.toNat * 1000) ticks := by
    by_cases h1 : window_ms ≤ 0
    · simp [_gen_cnd, _generate_candles_dataframe, h1] at hcs
    · by_cases h2 : ticks.isEmpty
      · simp [_gen_cnd, _generate_candles_dataframe, h1, h2] at hcs
      · simp [_gen_cnd, _generate_candles_dataframe, h1, h2] at hcs
        rw [← hcs]
  have hi2 : i < nBins (window_ms.toNat * 1000) ticks := by
    have := hi
    rw [hdata] at this
    simpa [candleRows] using this
  have hrow : (candleRows (window_ms.toNat * 1000) ticks)[i]? = some
      { open_ := (((interpolateColumn ((List.range (nBins (window_ms.toNat * 1000) ticks)).map
            (fun j => rawOpen (window_ms.toNat * 1000) ticks
              (minBin (window_ms.toNat * 1000) ticks + j)))).getD i none).getD 0)
        high := (((interpolateColumn ((List.range (nBins (window_ms.toNat * 1000) ticks)).map
            (fun j => rawHigh (window_ms.toNat * 1000) ticks
              (minBin (window_ms.toNat * 1000) ticks + j)))).getD i none).getD 0)
        low := (((interpolateColumn ((List.range (nBins (window_ms.toNat * 1000) ticks)).map
            (fun j => rawLow (window_ms.toNat * 1000) ticks
              (minBin (window_ms.toNat * 1000) ticks + j)))).getD i none).getD 0)
        close := (((interpolateColumn ((List.range (nBins (window_ms.toNat * 1000) ticks)).map
            (fun j => rawClose (window_ms.toNat * 1000) ticks
              (minBin (window_ms.toNat * 1000) ticks + j)))).getD i none).getD 0)
        avg_buy_price := avgPrice (sideTicks (window_ms.toNat * 1000) ticks
          (minBin (window_ms.toNat * 1000) ticks + i) Side.buy)
        avg_sell_price := avgPrice (sideTicks (window_ms.toNat * 1000) ticks
          (minBin (window_ms.toNat * 1000) ticks + i) Side.sell)
        buy_volume := sideVolume (sideTicks (window_ms.toNat * 1000) ticks
          (minBin (window_ms.toNat * 1000) ticks + i) Side.buy)
        sell_volume := sideVolume (sideTicks (window_ms.toNat * 1000) ticks
          (minBin (window_ms.toNat * 1000) ticks + i) Side.sell) } := by
    simp only [candleRows]
    rw [List.getElem?_map, List.getElem?_range hi2]
    rfl
  have hside : ∀ sd, sideTicks (window_ms.toNat * 1000) ticks
      (minBin (window_ms.toNat * 1000) ticks + i) sd = [] := by
    intro sd
    simp [sideTicks, hempty]
  have hget : getCandle cs i =
      (candleRows (window_ms.toNat * 1000) ticks)[i]?.getD default := by
    simp [getCandle, hdata]
  refine ⟨?_, ?_, ?_, ?_⟩ <;>
    simp [hget, hrow, hside, avgPrice, sideVolume]

/-- Claim C1, witness: the amended claim instantiated on `ticksC1` at the
empty window 1. -/
theorem claim_C1_witness :
    (getCandle csC1 1).avg_buy_price = 0 ∧ (getCandle csC1 1).avg_sell_price = 0 ∧
    (getCandle csC1 1).buy_volume = 0 ∧ (getCandle csC1 1).sell_volume = 0 :=
  claim_C1 ticksC1 1 csC1 1 rfl (by decide) (by decide)

/-- Claim C2: at the step P&L series `[-1, 3]` the code returns
`mean / np.std(series)` computed over the whole series, that is
`1 / 2`; the claimed downside-only standard deviation is
`std([-1]) = 0`, for which the claim prescribes the fallback result 0 —
and `1 / 2 ≠ 0`. -/
theorem claim_C2 :
    calcSortino [-1, 3] = (((1 : ℝ) / 2 : ℝ) : EReal) ∧
    (((1 : ℝ) / 2 : ℝ) : EReal) ≠ (0 : EReal) := by
  have hmean : mean [-1, 3] = 1 := by
    norm_num [mean]
  have hvar : variance [-1, 3] = 4 := by
    norm_num [variance, hmean]
  constructor
  · have hlen : ([(-1 : ℚ), 3].length = 0) = False := by simp
    have hdown : ([(-1 : ℚ), 3].filter (fun p => decide (p < 0))) = [-1] := by decide
    rw [calcSortino]
    simp only [hdown, hmean, hvar]
    norm_num
    rw [show (4 : ℝ) = 2 ^ 2 by norm_num, Real.sqrt_sq (by norm_num : (0:ℝ) ≤ 2)]
    norm_num
  · rw [show (0 : EReal) = ((0 : ℝ) : EReal) by simp]
    intro h
    have := EReal.coe_eq_coe_iff.mp h
    norm_num at this

/-- Claim C5: candle aggregation reports an error whenever the window size
is non-positive (and at least one instrument is aggregated), and whenever
the tick sequence of some instrument is empty. -/
theorem claim_C5 (data : List (String × List Tick)) (window_ms : ℤ)
    (h : (window_ms ≤ 0 ∧ data ≠ []) ∨ ∃ p ∈ data, p.2 = ([] : List Tick)) :
    ∃ msg, generate_candles data window_ms = .error msg := by
  induction data with
  | nil =>
    rcases h with ⟨-, hne⟩ | ⟨p, hp, -⟩
    · exact absurd rfl hne
    · exact absurd hp (List.not_mem_nil p)
  | cons q rest ih =>
    obtain ⟨n, ts⟩ := q
    by_cases hw : window_ms ≤ 0
    · exact ⟨"resample frequency must be positive",
        by simp [generate_candles, _gen_cnd, _generate_candles_dataframe, hw]⟩
    · rcases h with ⟨hle, -⟩ | ⟨p, hp, hp2⟩
      · exact absurd hle hw
      rcases List.mem_cons.mp hp with rfl | hprest
      · have hts : ts = [] := hp2
        exact ⟨"Length mismatch on candle columns",
          by simp [generate_candles, _gen_cnd, _generate_candles_dataframe, hw, hts]⟩
      · obtain ⟨msg, hmsg⟩ := ih (Or.inr ⟨p, hprest, hp2⟩)
        cases hg : _gen_cnd ts window_ms with
        | error e => exact ⟨e, by simp [generate_candles, hg]⟩
        | ok cs => exact ⟨msg, by simp [generate_candles, hg, hmsg]⟩

/-- Claim C5, witness: an instrument with an empty tick sequence makes the
aggregation fail. -/
theorem claim_C5_witness :
    ∃ msg, generate_candles [("doge", ([] : List Tick))] 5 = .error msg :=
  claim_C5 [("doge", ([] : List Tick))] 5
    (Or.inr ⟨("doge", ([] : List Tick)), by simp, rfl⟩)

/-- Claim C7: registering a strategy with a valid mode under a name that is
already present leaves the simulator unchanged and does not raise. -/
theorem claim_C7 (sim : TradingSimulator) (strat s0 : Strategy)
    (hmode : strat.mode ∈ Strategy.valid_modes)
    (hreg : sim.strategies.lookup strat.name = some s0) :
    add_strategy sim strat = .ok sim := by
  simp [add_strategy, hmode, hreg]

/-- Claim C7, witness: the idempotence claim instantiated on a simulator
that already holds a strategy named alpha. -/
theorem claim_C7_witness : add_strategy simC7 stratC7 = .ok simC7 :=
  claim_C7 simC7 stratC7 stratC7 (by decide) (by decide)

/-- Claim C8, counterexample: on an empty step P&L series no value is
negative, yet the code returns 0, not the claimed positive infinity. -/
theorem claim_C8_counterexample :
    calcSortino [] = (0 : EReal) ∧ (0 : EReal) ≠ (⊤ : EReal) := by
  constructor
  · simp [calcSortino]
  · rw [show (0 : EReal) = ((0 : ℝ) : EReal) by simp]
    exact EReal.coe_ne_top 0

/-- Claim C8, as amended: the ratio computations are total; the Sharpe ratio
is 0 whenever the series is empty or has zero variance; the Sortino ratio is
positive infinity whenever the series is nonempty and contains no negative
value, and 0 on the empty series. -/
theorem claim_C8 (pnls : List ℚ) :
    ((pnls = [] ∨ variance pnls = 0) → calcSharpe pnls = 0) ∧
    ((pnls ≠ [] ∧ pnls.filter (fun p => decide (p < 0)) = []) →
      calcSortino pnls = ⊤) ∧
    (pnls = [] → calcSortino pnls = 0) := by
  refine ⟨?_, ?_, ?_⟩
  · rintro (rfl | hvar)
    · simp [calcSharpe]
    · by_cases hlen : pnls.length = 0
      · simp [calcSharpe, hlen]
      · simp [calcSharpe, hlen, hvar]
  · rintro ⟨hne, hfilt⟩
    have hlen : ¬ pnls.length = 0 := by
      simpa [List.length_eq_zero] using hne
    rw [calcSortino]
    simp [hlen, hfilt]
  · rintro rfl
    simp [calcSortino]

/-- Claim C8, witness: the amended claim instantiated on the constant
series `[5]`: zero variance gives Sharpe 0, no downside gives Sortino
positive infinity. -/
theorem claim_C8_witness : calcSharpe [5] = 0 ∧ calcSortino [5] = ⊤ :=
  ⟨(claim_C8 [5]).1 (Or.inr (by norm_num [variance, mean])),
   (claim_C8 [5]).2.1 ⟨by simp, by decide⟩⟩

end CMF
